import Mathlib

/-!
Verification of the boxing ring fight engine (`boxing/models/ring_model.py`)
and the reading-list engine (`readinglist/models/readinglist_model.py`)
against their natural-language specification.

The Python code is shallowly embedded: each method becomes a Lean function
on an explicit state; Python `ValueError` raises become `Except.error`
values distinguished by raise site; the external database, clock and
random draw become explicit parameters; external side effects (stat
updates, read-count increments) are returned as logs.
-/

namespace Boxing

/-- A boxer record, as constructed in the tests:
`Boxer(id, name, weight, height, reach, age, weightclass)`.
Only `id`, `name`, `weight`, `reach` and `age` are used by the ring. -/
structure Boxer where
  id : ℕ
  name : String
  weight : ℤ
  height : ℤ
  reach : ℤ
  age : ℤ
deriving DecidableEq, Repr

/-- Error outcomes of the ring methods.  In Python every one of these is a
`ValueError`; we distinguish the raise sites. -/
inductive RingErr where
  /-- "There must be two boxers to start a fight." -/
  | notEnoughBoxers
  /-- The `boxer_1, boxer_2 = self.get_boxers()` unpacking fails when the
  ring holds more than two boxers. -/
  | unpackMismatch
  /-- "Ring is full, cannot add more boxers." -/
  | ringFull
  /-- The `ValueError` raised by `update_boxer_stats` when the boxer id is
  unknown to the stats collaborator. -/
  | unknownBoxer
deriving DecidableEq, Repr

/-- The outcome reported to the stats collaborator for one competitor. -/
inductive Outcome where
  | win
  | loss
deriving DecidableEq, Repr

/-- The observable result of a `fight` call: the returned winner name (or
the raised error), the ring contents after the call, and the stat updates
the external collaborator recorded, in order. -/
structure FightResult where
  res : Except RingErr String
  ring : List Boxer
  stats : List (ℕ × Outcome)
deriving Repr

/-- `RingModel.get_fighting_skill`:
`skill = (weight * len(name)) + (reach / 10) + age_modifier` with
`age_modifier = -1 if age < 25 else (-2 if age > 35 else 0)`. -/
def get_fighting_skill (b : Boxer) : ℚ :=
  let age_modifier : ℚ := if b.age < 25 then -1 else if b.age > 35 then -2 else 0
  (b.weight : ℚ) * (b.name.length : ℚ) + (b.reach : ℚ) / 10 + age_modifier

/-- `delta = abs(skill_1 - skill_2)` in `RingModel.fight`. -/
def skillDelta (s1 s2 : ℚ) : ℚ := |s1 - s2|

/-- `normalized_delta = 1 / (1 + math.e ** (-delta))` in `RingModel.fight`. -/
noncomputable def normalized_delta (s1 s2 : ℚ) : ℝ :=
  1 / (1 + Real.exp (-(skillDelta s1 s2 : ℚ)))

/-- The tail of `RingModel.fight` once the winner and loser are decided:
`update_boxer_stats(winner.id, 'win')`, `update_boxer_stats(loser.id,
'loss')`, `self.clear_ring()`, `return winner.name`.  Modelled from the
spec: `update_boxer_stats` lives in `boxers_model.py`, which is not among
the sources; per the spec the stats collaborator "fails if competitor_id
unknown", modelled by the predicate `known`.  Each raise propagates
immediately: an unknown winner id records nothing and leaves the ring as
it was; an unknown loser id leaves the ring as it was with only the
winner's update recorded; only when both updates succeed is the ring
cleared and the winner's name returned. -/
def report_stats_and_clear (known : ℕ → Bool) (ring : List Boxer)
    (winner loser : Boxer) : FightResult :=
  if known winner.id then
    if known loser.id then
      ⟨.ok winner.name, [], [(winner.id, .win), (loser.id, .loss)]⟩
    else ⟨.error .unknownBoxer, ring, [(winner.id, .win)]⟩
  else ⟨.error .unknownBoxer, ring, []⟩

/-- `RingModel.fight`, with the random draw `r` (Python `get_random()`)
and the stats collaborator's set of known boxer ids passed in explicitly.
The code first raises when fewer than two boxers are present, then
unpacks exactly two (a ring of three or more makes the unpacking itself
raise), picks the first boxer as winner exactly when
`r < normalized_delta`, reports the two stat updates, and only then
clears the ring. -/
noncomputable def fight (known : ℕ → Bool) (ring : List Boxer) (r : ℝ) :
    FightResult :=
  if ring.length < 2 then ⟨.error .notEnoughBoxers, ring, []⟩
  else
    match ring with
    | [b1, b2] =>
        if r < normalized_delta (get_fighting_skill b1) (get_fighting_skill b2) then
          report_stats_and_clear known ring b1 b2
        else
          report_stats_and_clear known ring b2 b1
    | _ => ⟨.error .unpackMismatch, ring, []⟩

/-- `RingModel.enter_ring` (the runtime type check cannot fail in the
typed embedding): raises when the ring already holds two boxers,
otherwise appends. -/
def enter_ring (ring : List Boxer) (b : Boxer) : Except RingErr (List Boxer) :=
  if 2 ≤ ring.length then .error .ringFull
  else .ok (ring ++ [b])

/-- `RingModel.clear_ring`: the result is the empty ring in either branch. -/
def clear_ring (_ring : List Boxer) : List Boxer := []

/-- The logistic probability is at least one half, because the exponent
`-delta` is nonpositive. -/
theorem normalized_delta_ge_half (s1 s2 : ℚ) :
    (1 : ℝ) / 2 ≤ normalized_delta s1 s2 := by
  unfold normalized_delta
  have hd : (0 : ℚ) ≤ skillDelta s1 s2 := abs_nonneg _
  have hexp : Real.exp (-(skillDelta s1 s2 : ℚ)) ≤ 1 := by
    rw [Real.exp_le_one_iff]
    have hd' : (0 : ℝ) ≤ (skillDelta s1 s2 : ℚ) := by exact_mod_cast hd
    linarith
  have hpos : (0 : ℝ) < 1 + Real.exp (-(skillDelta s1 s2 : ℚ)) := by
    have := Real.exp_pos (-(skillDelta s1 s2 : ℚ) : ℝ)
    linarith
  rw [div_le_div_iff₀ (by norm_num) hpos]
  linarith

/-- The probability only depends on the absolute skill gap, hence is
symmetric in the two skills. -/
theorem normalized_delta_comm (s1 s2 : ℚ) :
    normalized_delta s1 s2 = normalized_delta s2 s1 := by
  unfold normalized_delta skillDelta
  rw [abs_sub_comm]

/-- The sample boxer `Boxer(1234, "Alex", 160, 180, 77, 23, None)` from the
tests. -/
def alexBoxer : Boxer := ⟨1234, "Alex", 160, 180, 77, 23⟩

/-- The sample boxer `Boxer(5678, "Bob", 168, 175, 74, 21, None)` from the
tests. -/
def bobBoxer : Boxer := ⟨5678, "Bob", 168, 175, 74, 21⟩

/-- C2: `fight` raises unless the ring holds exactly two competitors
(fewer than two hits the explicit precondition raise, more than two makes
the tuple unpacking raise), and in those cases the ring is untouched;
called with exactly two competitors whose ids the stats collaborator
knows (so that neither `update_boxer_stats` call raises), it succeeds,
leaves the ring empty, and returns the name of one of the two
competitors (the winner). -/
theorem fight_requires_two_and_clears (known : ℕ → Bool) (ring : List Boxer) (r : ℝ) :
    (ring.length < 2 → fight known ring r = ⟨.error .notEnoughBoxers, ring, []⟩) ∧
    (2 < ring.length → fight known ring r = ⟨.error .unpackMismatch, ring, []⟩) ∧
    (∀ b1 b2, ring = [b1, b2] → known b1.id = true → known b2.id = true →
      ∃ w, (w = b1.name ∨ w = b2.name) ∧
        (fight known ring r).res = .ok w ∧ (fight known ring r).ring = []) := by
  refine ⟨fun h => ?_, fun h => ?_, fun b1 b2 h hk1 hk2 => ?_⟩
  · simp [fight, h]
  · match ring, h with
    | a :: b :: c :: t, _ => simp [fight]
  · subst h
    by_cases hr : r < normalized_delta (get_fighting_skill b1) (get_fighting_skill b2)
    · exact ⟨b1.name, Or.inl rfl,
        by simp [fight, report_stats_and_clear, hr, hk1, hk2]⟩
    · exact ⟨b2.name, Or.inr rfl,
        by simp [fight, report_stats_and_clear, hr, hk1, hk2]⟩

/-- Witness for C2 at concrete inputs: the empty ring errors, and the
two-boxer ring from the tests fights successfully when the stats
collaborator knows every id. -/
theorem fight_requires_two_and_clears_witness :
    fight (fun _ => true) [] 0 = ⟨.error .notEnoughBoxers, [], []⟩ ∧
    (∃ w, (w = alexBoxer.name ∨ w = bobBoxer.name) ∧
      (fight (fun _ => true) [alexBoxer, bobBoxer] 0).res = .ok w ∧
      (fight (fun _ => true) [alexBoxer, bobBoxer] 0).ring = []) :=
  ⟨(fight_requires_two_and_clears (fun _ => true) [] 0).1 (by simp),
   (fight_requires_two_and_clears (fun _ => true) [alexBoxer, bobBoxer] 0).2.2
      alexBoxer bobBoxer rfl rfl rfl⟩

/-- Counterexample to C3's last clause ("the more skilled side is always
favored, never penalized by entry order"): Bob is strictly less skilled
than Alex, yet when Bob enters first, a draw of 1/4 — which lies below
1/2 and hence below the win probability — makes Bob win.  The favored
side is the first entrant, not the more skilled one. -/
theorem more_skilled_not_always_favored :
    get_fighting_skill bobBoxer < get_fighting_skill alexBoxer ∧
    ((1 : ℝ) / 4) < 1 / 2 ∧
    (fight (fun _ => true) [bobBoxer, alexBoxer] (1 / 4)).res = .ok bobBoxer.name ∧
    bobBoxer.name ≠ alexBoxer.name := by
  refine ⟨?_, by norm_num, ?_, by decide⟩
  · simp [get_fighting_skill, alexBoxer, bobBoxer,
      show "Alex".length = 4 from rfl, show "Bob".length = 3 from rfl]
    norm_num
  · have hp := normalized_delta_ge_half (get_fighting_skill bobBoxer)
      (get_fighting_skill alexBoxer)
    have hr : (4 : ℝ)⁻¹ <
        normalized_delta (get_fighting_skill bobBoxer) (get_fighting_skill alexBoxer) :=
      lt_of_lt_of_le (by norm_num) hp
    simp [fight, report_stats_and_clear, hr]

/-- C3 (amended): the win probability is the logistic function of the
absolute skill gap, so it is symmetric in the two competitors and always
at least 1/2; the first-entered competitor (not necessarily the more
skilled one) is the favored side: any draw below 1/2 makes the first
competitor win (when neither stats update raises). -/
theorem fight_probability_properties (known : ℕ → Bool) (b1 b2 : Boxer) (r : ℝ) :
    normalized_delta (get_fighting_skill b1) (get_fighting_skill b2) =
      1 / (1 + Real.exp
        (-|(get_fighting_skill b1 : ℝ) - (get_fighting_skill b2 : ℝ)|)) ∧
    normalized_delta (get_fighting_skill b1) (get_fighting_skill b2) =
      normalized_delta (get_fighting_skill b2) (get_fighting_skill b1) ∧
    (1 : ℝ) / 2 ≤ normalized_delta (get_fighting_skill b1) (get_fighting_skill b2) ∧
    (r < 1 / 2 → known b1.id = true → known b2.id = true →
      (fight known [b1, b2] r).res = .ok b1.name ∧
      (fight known [b1, b2] r).ring = []) := by
  refine ⟨?_, normalized_delta_comm _ _, normalized_delta_ge_half _ _,
    fun hr hk1 hk2 => ?_⟩
  · unfold normalized_delta skillDelta
    push_cast
    ring_nf
  · have hp := normalized_delta_ge_half (get_fighting_skill b1) (get_fighting_skill b2)
    have hr' : r < normalized_delta (get_fighting_skill b1) (get_fighting_skill b2) :=
      lt_of_lt_of_le hr hp
    simp [fight, report_stats_and_clear, hr', hk1, hk2]

/-- Witness for C3 (amended) at concrete inputs: with the two test boxers
(all ids known to the stats collaborator) and draw 0, the first entrant
wins and the ring is cleared. -/
theorem fight_probability_properties_witness :
    (fight (fun _ => true) [alexBoxer, bobBoxer] 0).res = .ok alexBoxer.name ∧
    (fight (fun _ => true) [alexBoxer, bobBoxer] 0).ring = [] :=
  (fight_probability_properties (fun _ => true) alexBoxer bobBoxer 0).2.2.2
    (by norm_num) rfl rfl

/-- C4: the fighting skill is
`weight * len(name) + reach / 10 + age_modifier` with age modifier `-1`
below 25, `-2` above 35 and `0` otherwise; for weight 160, the 4-letter
name "Alex", reach 77 and age 23 it equals 646.7. -/
theorem get_fighting_skill_formula (b : Boxer) :
    get_fighting_skill b =
      (b.weight : ℚ) * (b.name.length : ℚ) + (b.reach : ℚ) / 10 +
        (if b.age < 25 then -1 else if b.age > 35 then -2 else 0) ∧
    get_fighting_skill ⟨1234, "Alex", 160, 180, 77, 23⟩ = 6467 / 10 := by
  refine ⟨rfl, ?_⟩
  simp [get_fighting_skill, show "Alex".length = 4 from rfl]
  norm_num

end Boxing

namespace ReadingList

/-- A book record (`book_model.py`, class `Books`): author, title, year,
genre, length (number of pages) and a read count. -/
structure Books where
  id : ℕ
  author : String
  title : String
  year : ℤ
  genre : String
  length : ℕ
  read_count : ℕ
deriving DecidableEq, Repr

/-- The external database (`Books.get_book_by_id`), modelled as a partial
map from book id to book record. -/
def DB : Type := ℕ → Option Books

/-- Error outcomes of the reading-list methods.  In Python every one of
these is a `ValueError`; we distinguish the raise sites. -/
inductive RLErr where
  /-- "Readinglist is empty" -/
  | emptyList
  /-- "Book with id ... not found in readinglist" -/
  | notInReadinglist
  /-- "Book ID ... not found in database" -/
  | notFoundInDB
  /-- "Book with ID ... already exists in the readinglist" -/
  | duplicateBook
  /-- "Invalid list number" -/
  | invalidListNumber
  /-- "Cannot swap a book with itself" -/
  | selfSwap
deriving DecidableEq, Repr

/-- The `ReadinglistModel` state: 1-indexed cursor, ordered list of book
ids, the book cache, the per-id cache expiry timestamps, and the
configured TTL (`ttl_seconds`, default 60). -/
structure RLState where
  current_list_number : ℕ
  readinglist : List ℕ
  book_cache : ℕ → Option Books
  ttl : ℕ → Option ℚ
  ttl_seconds : ℚ

/-- `ReadinglistModel.__init__`: empty list, cursor 1, empty cache. -/
def initialState (ttl_seconds : ℚ) : RLState :=
  ⟨1, [], fun _ => none, fun _ => none, ttl_seconds⟩

/-- The database-lookup branch of `_get_book_from_cache_or_db`: query the
database, propagate not-found, otherwise store the book in the cache with
expiry `now + ttl_seconds`.  The third component counts database lookup
calls. -/
def fetchFromDB (db : DB) (now : ℚ) (st : RLState) (book_id : ℕ) :
    Except RLErr Books × RLState × ℕ :=
  match db book_id with
  | none => (.error .notFoundInDB, st, 1)
  | some book =>
      (.ok book,
        { st with
          book_cache := fun j => if j = book_id then some book else st.book_cache j,
          ttl := fun j => if j = book_id then some (now + st.ttl_seconds) else st.ttl j },
        1)

/-- `ReadinglistModel._get_book_from_cache_or_db`: return the cached book
when a cache entry exists whose expiry (`self._ttl.get(book_id, 0)`) is
strictly greater than `now`, otherwise fetch from the database. -/
def _get_book_from_cache_or_db (db : DB) (now : ℚ) (st : RLState) (book_id : ℕ) :
    Except RLErr Books × RLState × ℕ :=
  match st.book_cache book_id with
  | some cached =>
      if now < (st.ttl book_id).getD 0 then (.ok cached, st, 0)
      else fetchFromDB db now st book_id
  | none => fetchFromDB db now st book_id

/-- `ReadinglistModel.validate_book_id`.  Book ids are natural numbers in
the embedding, so the `int(book_id) < 0` rejection can never fire; the
remaining checks are membership in the reading list (when requested) and
resolvability through the cache-or-database path, whose failure is
re-raised as a not-found-in-database error. -/
def validate_book_id (db : DB) (now : ℚ) (st : RLState) (book_id : ℕ)
    (check_in_readinglist : Bool) : Except RLErr Unit × RLState × ℕ :=
  if check_in_readinglist ∧ book_id ∉ st.readinglist then
    (.error .notInReadinglist, st, 0)
  else
    match _get_book_from_cache_or_db db now st book_id with
    | (.error _, st', n) => (.error .notFoundInDB, st', n)
    | (.ok _, st', n) => (.ok (), st', n)

/-- `ReadinglistModel.validate_list_number`: a list number is valid when
`1 <= list_number <= len(readinglist)`. -/
def validate_list_number (st : RLState) (list_number : ℕ) : Except RLErr ℕ :=
  if 1 ≤ list_number ∧ list_number ≤ st.readinglist.length then .ok list_number
  else .error .invalidListNumber

/-- `ReadinglistModel.check_if_empty`. -/
def check_if_empty (st : RLState) : Except RLErr Unit :=
  if st.readinglist = [] then .error .emptyList else .ok ()

/-- `ReadinglistModel.add_book_to_readinglist`: validate the id (without
the membership check, but resolving it — and hence touching the cache),
reject duplicates, resolve again, append the resolved book's id. -/
def add_book_to_readinglist (db : DB) (now : ℚ) (st : RLState) (book_id : ℕ) :
    Except RLErr Unit × RLState × ℕ :=
  match validate_book_id db now st book_id false with
  | (.error e, st', n) => (.error e, st', n)
  | (.ok _, st1, n1) =>
      if book_id ∈ st1.readinglist then (.error .duplicateBook, st1, n1)
      else
        match _get_book_from_cache_or_db db now st1 book_id with
        | (.error e, st2, n2) => (.error e, st2, n1 + n2)
        | (.ok book, st2, n2) =>
            (.ok (), { st2 with readinglist := st2.readinglist ++ [book.id] }, n1 + n2)

/-- `ReadinglistModel.remove_book_by_book_id`: empty check, id validation
(with membership check), then `list.remove` (first occurrence).  The
cursor is left untouched. -/
def remove_book_by_book_id (db : DB) (now : ℚ) (st : RLState) (book_id : ℕ) :
    Except RLErr Unit × RLState × ℕ :=
  match check_if_empty st with
  | .error e => (.error e, st, 0)
  | .ok _ =>
      match validate_book_id db now st book_id true with
      | (.error e, st', n) => (.error e, st', n)
      | (.ok _, st1, n1) =>
          if book_id ∉ st1.readinglist then (.error .notInReadinglist, st1, n1)
          else (.ok (), { st1 with readinglist := st1.readinglist.erase book_id }, n1)

/-- `ReadinglistModel.remove_book_by_list_number`: empty check, list
number validation, then `del readinglist[list_number - 1]`.  The cursor is
left untouched. -/
def remove_book_by_list_number (st : RLState) (list_number : ℕ) :
    Except RLErr Unit × RLState :=
  match check_if_empty st with
  | .error e => (.error e, st)
  | .ok _ =>
      match validate_list_number st list_number with
      | .error e => (.error e, st)
      | .ok n => (.ok (), { st with readinglist := st.readinglist.eraseIdx (n - 1) })

/-- `ReadinglistModel.clear_readinglist`: empties the list; the cursor and
the cache are left untouched. -/
def clear_readinglist (st : RLState) : RLState :=
  { st with readinglist := [] }

/-- Sequential resolution of a list of ids through the cache-or-database
path, as done by the list comprehension in `get_all_books` and the
generator in `get_readinglist_page_count`; the first failure propagates. -/
def resolve_list (db : DB) (now : ℚ) : RLState → List ℕ → Except RLErr (List Books) × RLState × ℕ
  | st, [] => (.ok [], st, 0)
  | st, i :: is =>
      match _get_book_from_cache_or_db db now st i with
      | (.error e, st', n) => (.error e, st', n)
      | (.ok b, st', n) =>
          match resolve_list db now st' is with
          | (.error e, st'', m) => (.error e, st'', n + m)
          | (.ok bs, st'', m) => (.ok (b :: bs), st'', n + m)

/-- `ReadinglistModel.get_all_books`: empty check, then resolve every id. -/
def get_all_books (db : DB) (now : ℚ) (st : RLState) :
    Except RLErr (List Books) × RLState × ℕ :=
  match check_if_empty st with
  | .error e => (.error e, st, 0)
  | .ok _ => resolve_list db now st st.readinglist

/-- `ReadinglistModel.get_book_by_book_id`: empty check, id validation
(with membership check), then one more resolution. -/
def get_book_by_book_id (db : DB) (now : ℚ) (st : RLState) (book_id : ℕ) :
    Except RLErr Books × RLState × ℕ :=
  match check_if_empty st with
  | .error e => (.error e, st, 0)
  | .ok _ =>
      match validate_book_id db now st book_id true with
      | (.error e, st', n) => (.error e, st', n)
      | (.ok _, st1, n1) =>
          match _get_book_from_cache_or_db db now st1 book_id with
          | (.error e, st2, n2) => (.error e, st2, n1 + n2)
          | (.ok book, st2, n2) => (.ok book, st2, n1 + n2)

/-- `ReadinglistModel.get_book_by_list_number`: empty check, list number
validation, then resolve the id stored at index `list_number - 1`. -/
def get_book_by_list_number (db : DB) (now : ℚ) (st : RLState) (list_number : ℕ) :
    Except RLErr Books × RLState × ℕ :=
  match check_if_empty st with
  | .error e => (.error e, st, 0)
  | .ok _ =>
      match validate_list_number st list_number with
      | .error e => (.error e, st, 0)
      | .ok n => _get_book_from_cache_or_db db now st (st.readinglist.getD (n - 1) 0)

/-- `ReadinglistModel.get_current_book`: empty check, then
`get_book_by_list_number(current_list_number)`. -/
def get_current_book (db : DB) (now : ℚ) (st : RLState) :
    Except RLErr Books × RLState × ℕ :=
  match check_if_empty st with
  | .error e => (.error e, st, 0)
  | .ok _ => get_book_by_list_number db now st st.current_list_number

/-- `ReadinglistModel.get_readinglist_length`. -/
def get_readinglist_length (st : RLState) : ℕ :=
  st.readinglist.length

/-- `ReadinglistModel.get_readinglist_page_count`: sums the `length`
(page-count) field of every resolved book.  There is no empty check. -/
def get_readinglist_page_count (db : DB) (now : ℚ) (st : RLState) :
    Except RLErr ℕ × RLState × ℕ :=
  match resolve_list db now st st.readinglist with
  | (.error e, st', n) => (.error e, st', n)
  | (.ok bs, st', n) => (.ok (bs.map Books.length).sum, st', n)

/-- `ReadinglistModel.go_to_list_number`: empty check, list number
validation, then set the cursor. -/
def go_to_list_number (st : RLState) (list_number : ℕ) : Except RLErr Unit × RLState :=
  match check_if_empty st with
  | .error e => (.error e, st)
  | .ok _ =>
      match validate_list_number st list_number with
      | .error e => (.error e, st)
      | .ok n => (.ok (), { st with current_list_number := n })

/-- `ReadinglistModel.go_to_random_list`, with the draw of
`get_random(length)` passed in explicitly as `r`.  Modelled from the spec:
`readinglist/utils/api_utils.py` is not part of the sources; per the spec
the random source "draws a uniform integer in [1, length]", so the engine
itself stores `r` unconditionally after the empty check. -/
def go_to_random_list (st : RLState) (r : ℕ) : Except RLErr Unit × RLState :=
  match check_if_empty st with
  | .error e => (.error e, st)
  | .ok _ => (.ok (), { st with current_list_number := r })

/-- `ReadinglistModel.move_book_to_beginning`: empty check, id validation,
then `remove` followed by `insert(0, book_id)`. -/
def move_book_to_beginning (db : DB) (now : ℚ) (st : RLState) (book_id : ℕ) :
    Except RLErr Unit × RLState × ℕ :=
  match check_if_empty st with
  | .error e => (.error e, st, 0)
  | .ok _ =>
      match validate_book_id db now st book_id true with
      | (.error e, st', n) => (.error e, st', n)
      | (.ok _, st1, n1) =>
          (.ok (), { st1 with readinglist := book_id :: st1.readinglist.erase book_id }, n1)

/-- `ReadinglistModel.move_book_to_end`: empty check, id validation, then
`remove` followed by `append(book_id)`. -/
def move_book_to_end (db : DB) (now : ℚ) (st : RLState) (book_id : ℕ) :
    Except RLErr Unit × RLState × ℕ :=
  match check_if_empty st with
  | .error e => (.error e, st, 0)
  | .ok _ =>
      match validate_book_id db now st book_id true with
      | (.error e, st', n) => (.error e, st', n)
      | (.ok _, st1, n1) =>
          (.ok (), { st1 with readinglist := st1.readinglist.erase book_id ++ [book_id] }, n1)

/-- `ReadinglistModel.move_book_to_list_number`: empty check, id and list
number validation, then `remove` followed by
`insert(list_number - 1, book_id)`. -/
def move_book_to_list_number (db : DB) (now : ℚ) (st : RLState) (book_id : ℕ)
    (list_number : ℕ) : Except RLErr Unit × RLState × ℕ :=
  match check_if_empty st with
  | .error e => (.error e, st, 0)
  | .ok _ =>
      match validate_book_id db now st book_id true with
      | (.error e, st', n) => (.error e, st', n)
      | (.ok _, st1, n1) =>
          match validate_list_number st1 list_number with
          | .error e => (.error e, st1, n1)
          | .ok n =>
              (.ok (),
                { st1 with readinglist :=
                    (st1.readinglist.erase book_id).insertIdx (n - 1) book_id },
                n1)

/-- `ReadinglistModel.swap_books_in_readinglist`: empty check, validation
of both ids, rejection of self-swap, then the simultaneous assignment
`l[i1], l[i2] = l[i2], l[i1]` on the indices of the first occurrences. -/
def swap_books_in_readinglist (db : DB) (now : ℚ) (st : RLState)
    (book1_id book2_id : ℕ) : Except RLErr Unit × RLState × ℕ :=
  match check_if_empty st with
  | .error e => (.error e, st, 0)
  | .ok _ =>
      match validate_book_id db now st book1_id true with
      | (.error e, st', n) => (.error e, st', n)
      | (.ok _, st1, n1) =>
          match validate_book_id db now st1 book2_id true with
          | (.error e, st', n2) => (.error e, st', n1 + n2)
          | (.ok _, st2, n2) =>
              if book1_id = book2_id then (.error .selfSwap, st2, n1 + n2)
              else
                let l := st2.readinglist
                let i1 := l.indexOf book1_id
                let i2 := l.indexOf book2_id
                (.ok (),
                  { st2 with readinglist := (l.set i1 (l.getD i2 0)).set i2 (l.getD i1 0) },
                  n1 + n2)

/-- `ReadinglistModel.rewind_readinglist`: empty check, then cursor 1. -/
def rewind_readinglist (st : RLState) : Except RLErr Unit × RLState :=
  match check_if_empty st with
  | .error e => (.error e, st)
  | .ok _ => (.ok (), { st with current_list_number := 1 })

/-- The outcome of a read operation: result, final state, number of
database lookup calls, and the ids for which a read-count increment was
requested from the lookup service, in order. -/
structure RunResult (α : Type) where
  res : Except RLErr α
  st : RLState
  dbCalls : ℕ
  increments : List ℕ

/-- `ReadinglistModel.read_current_book`: empty check, resolve the book at
the cursor, request a read-count increment for it
(`Books.update_read_count` re-queries the database and raises when the
book is gone), then advance the cursor circularly:
`current_list_number = (current_list_number % length) + 1`. -/
def read_current_book (db : DB) (now : ℚ) (st : RLState) : RunResult Unit :=
  match check_if_empty st with
  | .error e => ⟨.error e, st, 0, []⟩
  | .ok _ =>
      match get_book_by_list_number db now st st.current_list_number with
      | (.error e, st', n) => ⟨.error e, st', n, []⟩
      | (.ok book, st', n) =>
          match db book.id with
          | none => ⟨.error .notFoundInDB, st', n, []⟩
          | some _ =>
              ⟨.ok (),
                { st' with current_list_number :=
                    st'.current_list_number % st'.readinglist.length + 1 },
                n, [book.id]⟩

/-- `k` successive calls of `read_current_book`, stopping at the first
failure, as performed by the loops of `read_entire_readinglist` and
`read_rest_of_readinglist`. -/
def readLoop (db : DB) (now : ℚ) : ℕ → RLState → RunResult Unit
  | 0, st => ⟨.ok (), st, 0, []⟩
  | k + 1, st =>
      match read_current_book db now st with
      | ⟨.error e, st', n, inc⟩ => ⟨.error e, st', n, inc⟩
      | ⟨.ok _, st', n, inc⟩ =>
          let r := readLoop db now k st'
          ⟨r.res, r.st, n + r.dbCalls, inc ++ r.increments⟩

/-- `ReadinglistModel.read_entire_readinglist`: empty check, cursor reset
to 1, then `read_current_book` once per list entry. -/
def read_entire_readinglist (db : DB) (now : ℚ) (st : RLState) : RunResult Unit :=
  match check_if_empty st with
  | .error e => ⟨.error e, st, 0, []⟩
  | .ok _ =>
      readLoop db now st.readinglist.length { st with current_list_number := 1 }

/-- `ReadinglistModel.read_rest_of_readinglist`: empty check, then
`read_current_book` repeated `len(readinglist) - current_list_number + 1`
times (the Python `range` is empty when that quantity is negative). -/
def read_rest_of_readinglist (db : DB) (now : ℚ) (st : RLState) : RunResult Unit :=
  match check_if_empty st with
  | .error e => ⟨.error e, st, 0, []⟩
  | .ok _ =>
      readLoop db now
        ((st.readinglist.length : ℤ) - (st.current_list_number : ℤ) + 1).toNat st

/-- A cache entry for `book_id` is live when it exists and its expiry lies
strictly in the future. -/
def cache_live (now : ℚ) (st : RLState) (book_id : ℕ) : Prop :=
  (st.book_cache book_id).isSome ∧ now < (st.ttl book_id).getD 0

/-- A book id can be resolved when a live cache entry exists or the
database holds the book. -/
def resolvable (db : DB) (now : ℚ) (st : RLState) (book_id : ℕ) : Prop :=
  cache_live now st book_id ∨ (db book_id).isSome

@[simp] lemma fetchFromDB_readinglist (db : DB) (now : ℚ) (st : RLState) (i : ℕ) :
    (fetchFromDB db now st i).2.1.readinglist = st.readinglist := by
  unfold fetchFromDB; split <;> rfl

@[simp] lemma fetchFromDB_current (db : DB) (now : ℚ) (st : RLState) (i : ℕ) :
    (fetchFromDB db now st i).2.1.current_list_number = st.current_list_number := by
  unfold fetchFromDB; split <;> rfl

@[simp] lemma fetchFromDB_ttl_seconds (db : DB) (now : ℚ) (st : RLState) (i : ℕ) :
    (fetchFromDB db now st i).2.1.ttl_seconds = st.ttl_seconds := by
  unfold fetchFromDB; split <;> rfl

@[simp] lemma resolve_readinglist (db : DB) (now : ℚ) (st : RLState) (i : ℕ) :
    (_get_book_from_cache_or_db db now st i).2.1.readinglist = st.readinglist := by
  unfold _get_book_from_cache_or_db
  split
  · split
    · rfl
    · simp
  · simp

@[simp] lemma resolve_current (db : DB) (now : ℚ) (st : RLState) (i : ℕ) :
    (_get_book_from_cache_or_db db now st i).2.1.current_list_number =
      st.current_list_number := by
  unfold _get_book_from_cache_or_db
  split
  · split
    · rfl
    · simp
  · simp

@[simp] lemma resolve_ttl_seconds (db : DB) (now : ℚ) (st : RLState) (i : ℕ) :
    (_get_book_from_cache_or_db db now st i).2.1.ttl_seconds = st.ttl_seconds := by
  unfold _get_book_from_cache_or_db
  split
  · split
    · rfl
    · simp
  · simp

@[simp] lemma validate_readinglist (db : DB) (now : ℚ) (st : RLState) (i : ℕ) (c : Bool) :
    (validate_book_id db now st i c).2.1.readinglist = st.readinglist := by
  unfold validate_book_id
  split
  · rfl
  · split <;> rename_i heq <;>
      simpa using (congrArg (fun x => x.2.1.readinglist) heq).symm

@[simp] lemma validate_current (db : DB) (now : ℚ) (st : RLState) (i : ℕ) (c : Bool) :
    (validate_book_id db now st i c).2.1.current_list_number = st.current_list_number := by
  unfold validate_book_id
  split
  · rfl
  · split <;> rename_i heq <;>
      simpa using (congrArg (fun x => x.2.1.current_list_number) heq).symm

@[simp] lemma validate_ttl_seconds (db : DB) (now : ℚ) (st : RLState) (i : ℕ) (c : Bool) :
    (validate_book_id db now st i c).2.1.ttl_seconds = st.ttl_seconds := by
  unfold validate_book_id
  split
  · rfl
  · split <;> rename_i heq <;>
      simpa using (congrArg (fun x => x.2.1.ttl_seconds) heq).symm

/-- Cache hit: a live entry is returned as-is, with no state change and no
database call. -/
lemma resolve_hit {db : DB} {now : ℚ} {st : RLState} {i : ℕ} {b : Books}
    (hb : st.book_cache i = some b) (ht : now < (st.ttl i).getD 0) :
    _get_book_from_cache_or_db db now st i = (.ok b, st, 0) := by
  unfold _get_book_from_cache_or_db
  simp only [hb, if_pos ht]

/-- Cache miss with the book present in the database: the book is
returned, stored in the cache with expiry `now + ttl_seconds`, and one
database call is made. -/
lemma resolve_miss_found {db : DB} {now : ℚ} {st : RLState} {i : ℕ} {b : Books}
    (hcl : ¬ cache_live now st i) (hd : db i = some b) :
    _get_book_from_cache_or_db db now st i =
      (.ok b,
        { st with
          book_cache := fun j => if j = i then some b else st.book_cache j,
          ttl := fun j => if j = i then some (now + st.ttl_seconds) else st.ttl j },
        1) := by
  unfold _get_book_from_cache_or_db fetchFromDB
  rcases hc : st.book_cache i with _ | c
  · simp only [hd]
  · have ht : ¬ now < (st.ttl i).getD 0 := fun ht => hcl ⟨by simp [hc], ht⟩
    simp only [if_neg ht, hd]

/-- Cache miss with the book absent from the database: the error
propagates and the state is unchanged (nothing is stored), after one
database call. -/
lemma resolve_miss_absent {db : DB} {now : ℚ} {st : RLState} {i : ℕ}
    (hcl : ¬ cache_live now st i) (hd : db i = none) :
    _get_book_from_cache_or_db db now st i = (.error .notFoundInDB, st, 1) := by
  unfold _get_book_from_cache_or_db fetchFromDB
  rcases hc : st.book_cache i with _ | c
  · simp only [hd]
  · have ht : ¬ now < (st.ttl i).getD 0 := fun ht => hcl ⟨by simp [hc], ht⟩
    simp only [if_neg ht, hd]

/-- A resolvable id resolves successfully. -/
lemma resolve_ok_of_resolvable (db : DB) (now : ℚ) (st : RLState) (i : ℕ)
    (h : resolvable db now st i) :
    ∃ b st' n, _get_book_from_cache_or_db db now st i = (.ok b, st', n) := by
  rcases h with ⟨hsome, ht⟩ | hdb
  · rcases hc : st.book_cache i with _ | c
    · rw [hc] at hsome; simp at hsome
    · exact ⟨c, st, 0, resolve_hit hc ht⟩
  · rcases hd : db i with _ | b
    · rw [hd] at hdb; simp at hdb
    · by_cases hcl : cache_live now st i
      · obtain ⟨hsome, ht⟩ := hcl
        rcases hc : st.book_cache i with _ | c
        · rw [hc] at hsome; simp at hsome
        · exact ⟨c, st, 0, resolve_hit hc ht⟩
      · exact ⟨b, _, 1, resolve_miss_found hcl hd⟩

/-- When the database holds the book under its own id and the cache is
well-formed (every cached book is stored under its own id), resolution
succeeds, returns a book carrying the requested id, and preserves cache
well-formedness. -/
lemma resolve_ok_wf (db : DB) (now : ℚ) (st : RLState) (i : ℕ)
    (hdb : ∃ b, db i = some b ∧ b.id = i)
    (hwf : ∀ j bk, st.book_cache j = some bk → bk.id = j) :
    ∃ b st' n, _get_book_from_cache_or_db db now st i = (.ok b, st', n) ∧ b.id = i ∧
      (∀ j bk, st'.book_cache j = some bk → bk.id = j) := by
  obtain ⟨b, hd, hb⟩ := hdb
  by_cases hcl : cache_live now st i
  · obtain ⟨hsome, ht⟩ := hcl
    rcases hc : st.book_cache i with _ | c
    · rw [hc] at hsome; simp at hsome
    · exact ⟨c, st, 0, resolve_hit hc ht, hwf i c hc, hwf⟩
  · refine ⟨b, _, 1, resolve_miss_found hcl hd, hb, ?_⟩
    intro j bk hj
    dsimp at hj
    by_cases hji : j = i
    · rw [if_pos hji] at hj
      cases hj
      rw [hb, hji]
    · rw [if_neg hji] at hj
      exact hwf j bk hj

/-- A successful `validate_book_id` with the membership check enabled
implies the id is in the reading list. -/
lemma validate_mem_of_ok {db : DB} {now : ℚ} {st : RLState} {i : ℕ}
    {u : Unit} {st1 : RLState} {n1 : ℕ}
    (h : validate_book_id db now st i true = (.ok u, st1, n1)) :
    i ∈ st.readinglist := by
  by_contra hmem
  simp [validate_book_id, hmem] at h

/-- A concrete book with id 1. -/
def book1 : Books := ⟨1, "Author1", "Title1", 2001, "Genre", 281, 0⟩

/-- A concrete book with id 2. -/
def book2 : Books := ⟨2, "Author2", "Title2", 2002, "Genre", 328, 0⟩

/-- A concrete database holding exactly `book1` and `book2`. -/
def db0 : DB := fun i => if i = 1 then some book1 else if i = 2 then some book2 else none

/-- C5: behaviour of the cache-or-fetch path.  A live cache entry is
returned with no state change and no database call; a miss with the book
in the database stores it with expiry `now + ttl_seconds` and makes one
call; a miss with the book absent propagates the not-found error and
stores nothing; resolving the same id a second time within `ttl_seconds`
of a fetch makes no further database call, while resolving at or after
expiry makes a second call. -/
theorem cache_or_fetch_spec (db : DB) (now now2 : ℚ) (st : RLState) (book_id : ℕ) :
    (∀ b, st.book_cache book_id = some b → now < (st.ttl book_id).getD 0 →
      _get_book_from_cache_or_db db now st book_id = (.ok b, st, 0)) ∧
    (∀ b, ¬ cache_live now st book_id → db book_id = some b →
      _get_book_from_cache_or_db db now st book_id =
        (.ok b,
          { st with
            book_cache := fun j => if j = book_id then some b else st.book_cache j,
            ttl := fun j => if j = book_id then some (now + st.ttl_seconds) else st.ttl j },
          1)) ∧
    (¬ cache_live now st book_id → db book_id = none →
      _get_book_from_cache_or_db db now st book_id = (.error .notFoundInDB, st, 1)) ∧
    (∀ b, ¬ cache_live now st book_id → db book_id = some b →
      now2 < now + st.ttl_seconds →
      (_get_book_from_cache_or_db db now st book_id).2.2 = 1 ∧
      _get_book_from_cache_or_db db now2
          (_get_book_from_cache_or_db db now st book_id).2.1 book_id =
        (.ok b, (_get_book_from_cache_or_db db now st book_id).2.1, 0)) ∧
    (∀ b, ¬ cache_live now st book_id → db book_id = some b →
      now + st.ttl_seconds ≤ now2 →
      (_get_book_from_cache_or_db db now2
          (_get_book_from_cache_or_db db now st book_id).2.1 book_id).2.2 = 1) := by
  refine ⟨fun b hb ht => resolve_hit hb ht,
          fun b hcl hd => resolve_miss_found hcl hd,
          fun hcl hd => resolve_miss_absent hcl hd,
          fun b hcl hd h2 => ?_, fun b hcl hd h2 => ?_⟩
  · rw [resolve_miss_found hcl hd]
    refine ⟨rfl, ?_⟩
    exact resolve_hit (by simp) (by simpa using h2)
  · rw [resolve_miss_found hcl hd]
    have hcl2 : ¬ cache_live now2
        { st with
          book_cache := fun j => if j = book_id then some b else st.book_cache j,
          ttl := fun j => if j = book_id then some (now + st.ttl_seconds) else st.ttl j }
        book_id := by
      rintro ⟨-, ht⟩
      simp only [Option.getD_some, if_pos rfl] at ht
      exact absurd h2 (not_le.mpr ht)
    rw [resolve_miss_found hcl2 hd]

/-- Witness for C5 at concrete inputs, starting from the empty cache with
TTL 60: the first resolution of book 1 at time 0 makes one database call,
resolving again at time 30 makes none, resolving at time 60 makes a
second call, and resolving the absent id 99 fails and stores nothing. -/
theorem cache_or_fetch_spec_witness :
    ((_get_book_from_cache_or_db db0 0 (initialState 60) 1).2.2 = 1 ∧
      _get_book_from_cache_or_db db0 30
          (_get_book_from_cache_or_db db0 0 (initialState 60) 1).2.1 1 =
        (.ok book1, (_get_book_from_cache_or_db db0 0 (initialState 60) 1).2.1, 0)) ∧
    (_get_book_from_cache_or_db db0 60
        (_get_book_from_cache_or_db db0 0 (initialState 60) 1).2.1 1).2.2 = 1 ∧
    _get_book_from_cache_or_db db0 0 (initialState 60) 99 =
      (.error .notFoundInDB, initialState 60, 1) :=
  ⟨(cache_or_fetch_spec db0 0 30 (initialState 60) 1).2.2.2.1 book1
      (by simp [cache_live, initialState]) rfl (by norm_num [initialState]),
   (cache_or_fetch_spec db0 0 60 (initialState 60) 1).2.2.2.2 book1
      (by simp [cache_live, initialState]) rfl (by norm_num [initialState]),
   (cache_or_fetch_spec db0 0 0 (initialState 60) 99).2.2.1
      (by simp [cache_live, initialState]) rfl⟩

/-- C6: adding a book id that is already in the reading list fails with
the duplicate error, and the reading list is unchanged by the failed
call. -/
theorem add_duplicate_fails (db : DB) (now : ℚ) (st : RLState) (book_id : ℕ)
    (hmem : book_id ∈ st.readinglist) (hres : resolvable db now st book_id) :
    (add_book_to_readinglist db now st book_id).1 = .error .duplicateBook ∧
    (add_book_to_readinglist db now st book_id).2.1.readinglist = st.readinglist := by
  obtain ⟨b, st', n, h⟩ := resolve_ok_of_resolvable db now st book_id hres
  have hl : st'.readinglist = st.readinglist := by
    have h2 := resolve_readinglist db now st book_id
    rw [h] at h2
    exact h2
  unfold add_book_to_readinglist validate_book_id
  simp only [h, Bool.false_eq_true, false_and, if_false, hl, hmem, if_pos]
  exact ⟨trivial, trivial⟩

/-- Witness for C6 at concrete inputs: adding book 1 to a singleton list
that already holds it fails with the duplicate error and leaves the list
at `[1]`. -/
theorem add_duplicate_fails_witness :
    (add_book_to_readinglist db0 0 ⟨1, [1], fun _ => none, fun _ => none, 60⟩ 1).1 =
      .error .duplicateBook ∧
    (add_book_to_readinglist db0 0 ⟨1, [1], fun _ => none, fun _ => none, 60⟩ 1).2.1.readinglist
      = [1] :=
  add_duplicate_fails db0 0 ⟨1, [1], fun _ => none, fun _ => none, 60⟩ 1
    (by simp) (Or.inr (by simp [db0]))

/-- C9: on an empty reading list the total-page query returns 0 without
raising, while the other read accessors all raise the empty-list error. -/
theorem page_count_tolerates_empty (db : DB) (now : ℚ) (st : RLState)
    (h : st.readinglist = []) :
    get_readinglist_page_count db now st = (.ok 0, st, 0) ∧
    get_all_books db now st = (.error .emptyList, st, 0) ∧
    (∀ i, get_book_by_book_id db now st i = (.error .emptyList, st, 0)) ∧
    (∀ n, get_book_by_list_number db now st n = (.error .emptyList, st, 0)) ∧
    get_current_book db now st = (.error .emptyList, st, 0) := by
  refine ⟨?_, ?_, fun i => ?_, fun n => ?_, ?_⟩ <;>
    simp [get_readinglist_page_count, get_all_books, get_book_by_book_id,
      get_book_by_list_number, get_current_book, check_if_empty, resolve_list, h]

/-- Witness for C9 at a concrete input: the freshly initialised (empty)
reading list. -/
theorem page_count_tolerates_empty_witness :
    get_readinglist_page_count db0 0 (initialState 60) = (.ok 0, initialState 60, 0) ∧
    get_all_books db0 0 (initialState 60) = (.error .emptyList, initialState 60, 0) ∧
    (∀ i, get_book_by_book_id db0 0 (initialState 60) i =
      (.error .emptyList, initialState 60, 0)) ∧
    (∀ n, get_book_by_list_number db0 0 (initialState 60) n =
      (.error .emptyList, initialState 60, 0)) ∧
    get_current_book db0 0 (initialState 60) = (.error .emptyList, initialState 60, 0) :=
  page_count_tolerates_empty db0 0 (initialState 60) rfl

/-- C10: `clear_readinglist` empties the list but leaves the cursor
unchanged, and `add_book_to_readinglist` never moves the cursor either,
so after a clear followed by adds the cursor retains its pre-clear
value. -/
theorem clear_keeps_cursor (db : DB) (now : ℚ) (st : RLState) (book_id : ℕ) :
    (clear_readinglist st).readinglist = [] ∧
    (clear_readinglist st).current_list_number = st.current_list_number ∧
    (∀ st' : RLState,
      (add_book_to_readinglist db now st' book_id).2.1.current_list_number =
        st'.current_list_number) := by
  refine ⟨rfl, rfl, fun st' => ?_⟩
  unfold add_book_to_readinglist
  split <;> rename_i heq
  · have h := validate_current db now st' book_id false
    rw [heq] at h
    exact h
  · rename_i u st1 n1
    have h1 : st1.current_list_number = st'.current_list_number := by
      have h := validate_current db now st' book_id false
      rw [heq] at h
      exact h
    split
    · exact h1
    · split <;> rename_i heq2
      · have h := resolve_current db now st1 book_id
        rw [heq2] at h
        exact h.trans h1
      · have h := resolve_current db now st1 book_id
        rw [heq2] at h
        exact h.trans h1

/-- Successful run of `read_current_book`: with a valid cursor, a
database that holds every listed book under its own id, and a well-formed
cache, the call succeeds, requests exactly one read-count increment (for
the book at the cursor), leaves the list unchanged, advances the cursor
circularly, and preserves cache well-formedness. -/
lemma read_current_book_ok (db : DB) (now : ℚ) (st : RLState)
    (h1 : 1 ≤ st.current_list_number)
    (h2 : st.current_list_number ≤ st.readinglist.length)
    (hdb : ∀ j ∈ st.readinglist, ∃ b, db j = some b ∧ b.id = j)
    (hwf : ∀ j bk, st.book_cache j = some bk → bk.id = j) :
    (read_current_book db now st).res = .ok () ∧
    (read_current_book db now st).st.readinglist = st.readinglist ∧
    (read_current_book db now st).st.current_list_number =
      st.current_list_number % st.readinglist.length + 1 ∧
    (read_current_book db now st).increments =
      [st.readinglist.getD (st.current_list_number - 1) 0] ∧
    (∀ j bk, (read_current_book db now st).st.book_cache j = some bk → bk.id = j) := by
  have hne : st.readinglist ≠ [] := by
    intro he
    rw [he] at h2
    simp at h2
    omega
  have hidx : st.current_list_number - 1 < st.readinglist.length := by omega
  have hgetd : st.readinglist.getD (st.current_list_number - 1) 0 =
      st.readinglist[st.current_list_number - 1] :=
    List.getD_eq_getElem _ _ hidx
  have hmemi : st.readinglist[st.current_list_number - 1] ∈ st.readinglist :=
    List.getElem_mem hidx
  obtain ⟨b, st', n, hres, hbid, hwf'⟩ :=
    resolve_ok_wf db now st (st.readinglist.getD (st.current_list_number - 1) 0)
      (by rw [hgetd]; exact hdb _ hmemi) hwf
  obtain ⟨bb, hdbi, -⟩ : ∃ bb, db (st.readinglist.getD (st.current_list_number - 1) 0)
      = some bb ∧ bb.id = st.readinglist.getD (st.current_list_number - 1) 0 := by
    rw [hgetd]; exact hdb _ hmemi
  have hl' : st'.readinglist = st.readinglist := by
    have h := resolve_readinglist db now st
      (st.readinglist.getD (st.current_list_number - 1) 0)
    rw [hres] at h
    exact h
  have hc' : st'.current_list_number = st.current_list_number := by
    have h := resolve_current db now st
      (st.readinglist.getD (st.current_list_number - 1) 0)
    rw [hres] at h
    exact h
  have hcond : 1 ≤ st.current_list_number ∧
      st.current_list_number ≤ st.readinglist.length := ⟨h1, h2⟩
  simp only [read_current_book, get_book_by_list_number, check_if_empty,
    validate_list_number, if_neg hne, if_pos hcond, hres, hbid, hdbi]
  exact ⟨trivial, hl', by rw [hc', hl'], trivial, hwf'⟩

/-- C7: on a non-empty list with the cursor at a valid position N,
`read_current_book` succeeds, requests exactly one read-count increment —
for the book id stored at position N — leaves the list unchanged, and
advances the cursor to `(N % length) + 1`. -/
theorem read_current_book_spec (db : DB) (now : ℚ) (st : RLState)
    (h1 : 1 ≤ st.current_list_number)
    (h2 : st.current_list_number ≤ st.readinglist.length)
    (hdb : ∀ j ∈ st.readinglist, ∃ b, db j = some b ∧ b.id = j)
    (hwf : ∀ j bk, st.book_cache j = some bk → bk.id = j) :
    (read_current_book db now st).res = .ok () ∧
    (read_current_book db now st).increments =
      [st.readinglist.getD (st.current_list_number - 1) 0] ∧
    (read_current_book db now st).st.readinglist = st.readinglist ∧
    (read_current_book db now st).st.current_list_number =
      st.current_list_number % st.readinglist.length + 1 := by
  obtain ⟨ha, hb, hc, hd, -⟩ := read_current_book_ok db now st h1 h2 hdb hwf
  exact ⟨ha, hd, hb, hc⟩

/-- Witness for C7 at concrete inputs: on the list `[1, 2]`, reading at
cursor 1 increments book 1 and moves the cursor to 2, and reading at
cursor 2 increments book 2 and wraps the cursor back to 1. -/
theorem read_current_book_spec_witness :
    ((read_current_book db0 0 ⟨1, [1, 2], fun _ => none, fun _ => none, 60⟩).res = .ok () ∧
      (read_current_book db0 0 ⟨1, [1, 2], fun _ => none, fun _ => none, 60⟩).increments
        = [1] ∧
      (read_current_book db0 0
        ⟨1, [1, 2], fun _ => none, fun _ => none, 60⟩).st.current_list_number = 2) ∧
    ((read_current_book db0 0 ⟨2, [1, 2], fun _ => none, fun _ => none, 60⟩).res = .ok () ∧
      (read_current_book db0 0 ⟨2, [1, 2], fun _ => none, fun _ => none, 60⟩).increments
        = [2] ∧
      (read_current_book db0 0
        ⟨2, [1, 2], fun _ => none, fun _ => none, 60⟩).st.current_list_number = 1) := by
  have hdb : ∀ j ∈ ([1, 2] : List ℕ), ∃ b, db0 j = some b ∧ b.id = j := by
    intro j hj
    rcases (by simpa using hj : j = 1 ∨ j = 2) with rfl | rfl
    · exact ⟨book1, rfl, rfl⟩
    · exact ⟨book2, rfl, rfl⟩
  have hwf : ∀ j bk, ((fun _ => none : ℕ → Option Books) j) = some bk → bk.id = j :=
    fun j bk h => Option.noConfusion h
  have hA := read_current_book_spec db0 0 ⟨1, [1, 2], fun _ => none, fun _ => none, 60⟩
    (by norm_num) (by norm_num) hdb hwf
  have hB := read_current_book_spec db0 0 ⟨2, [1, 2], fun _ => none, fun _ => none, 60⟩
    (by norm_num) (by norm_num) hdb hwf
  exact ⟨⟨hA.1, hA.2.1, hA.2.2.2⟩, ⟨hB.1, hB.2.1, hB.2.2.2⟩⟩

/-- One-step unfolding of `readLoop` when the first read succeeds. -/
lemma readLoop_succ_ok {db : DB} {now : ℚ} {st st1 : RLState} {n1 : ℕ}
    {inc1 : List ℕ} {k : ℕ}
    (hrc : read_current_book db now st = ⟨.ok (), st1, n1, inc1⟩) :
    readLoop db now (k + 1) st =
      ⟨(readLoop db now k st1).res, (readLoop db now k st1).st,
        n1 + (readLoop db now k st1).dbCalls,
        inc1 ++ (readLoop db now k st1).increments⟩ := by
  simp only [readLoop, hrc]

/-- Running the read loop for exactly the number of remaining positions:
starting at cursor position `length + 1 - k`, `k` successive
`read_current_book` calls all succeed, produce one increment per visited
position (the suffix of the list from the starting position), and leave
the cursor back at 1. -/
lemma readLoop_ok (db : DB) (now : ℚ) (l : List ℕ)
    (hdb : ∀ j ∈ l, ∃ b, db j = some b ∧ b.id = j) :
    ∀ k st, 1 ≤ k → st.readinglist = l →
      (∀ j bk, st.book_cache j = some bk → bk.id = j) →
      1 ≤ st.current_list_number →
      st.current_list_number + k = l.length + 1 →
      (readLoop db now k st).res = .ok () ∧
      (readLoop db now k st).st.readinglist = l ∧
      (readLoop db now k st).st.current_list_number = 1 ∧
      (readLoop db now k st).increments = l.drop (st.current_list_number - 1) := by
  intro k
  induction k with
  | zero =>
    intro st hk
    exact absurd hk (by norm_num)
  | succ k ih =>
    intro st hk hl hwf hp1 hsum
    have h2 : st.current_list_number ≤ st.readinglist.length := by rw [hl]; omega
    obtain ⟨hres, hlist, hcur, hinc, hwf'⟩ :=
      read_current_book_ok db now st hp1 h2 (by rw [hl]; exact hdb) hwf
    rcases hrc : read_current_book db now st with ⟨res1, st1, n1, inc1⟩
    rw [hrc] at hres hlist hcur hinc hwf'
    dsimp at hres hlist hcur hinc hwf'
    subst hres
    have hlist' : st1.readinglist = l := hlist.trans hl
    have hidx : st.current_list_number - 1 < l.length := by omega
    have hgetd : st.readinglist.getD (st.current_list_number - 1) 0 =
        l[st.current_list_number - 1] := by
      rw [hl]
      exact List.getD_eq_getElem _ _ hidx
    rcases k with _ | k'
    · -- last iteration: the cursor was at the final position
      have hfin : st.current_list_number = l.length := by omega
      simp only [readLoop, hrc]
      refine ⟨trivial, hlist', ?_, ?_⟩
      · rw [hcur, hl, hfin, Nat.mod_self]
      · rw [hinc, hgetd, List.drop_eq_getElem_cons hidx]
        have hdrop : l.drop (st.current_list_number - 1 + 1) = [] := by
          apply List.drop_eq_nil_of_le
          omega
        rw [hdrop]
        simp
    · -- at least one more iteration after this one
      have hlt : st.current_list_number < l.length := by omega
      have hcur1 : st1.current_list_number = st.current_list_number + 1 := by
        rw [hcur, hl, Nat.mod_eq_of_lt hlt]
      have hrest := ih st1 (by omega) hlist' hwf' (by omega)
        (by rw [hcur1]; omega)
      rw [readLoop_succ_ok hrc]
      refine ⟨hrest.1, hrest.2.1, hrest.2.2.1, ?_⟩
      show inc1 ++ (readLoop db now (k' + 1) st1).increments = _
      rw [hinc, hrest.2.2.2, hcur1, hgetd]
      have h3 : st.current_list_number + 1 - 1 = st.current_list_number - 1 + 1 := by
        omega
      rw [h3, List.singleton_append]
      exact (List.drop_eq_getElem_cons hidx).symm

/-- C8: on a non-empty list, `read_entire_readinglist` succeeds, requests
exactly one read-count increment per list entry — the increments are
precisely the list of book ids in order, hence exactly N of them — and
leaves the cursor at position 1 with the list unchanged. -/
theorem read_entire_readinglist_spec (db : DB) (now : ℚ) (st : RLState)
    (hne : st.readinglist ≠ [])
    (hdb : ∀ j ∈ st.readinglist, ∃ b, db j = some b ∧ b.id = j)
    (hwf : ∀ j bk, st.book_cache j = some bk → bk.id = j) :
    (read_entire_readinglist db now st).res = .ok () ∧
    (read_entire_readinglist db now st).increments = st.readinglist ∧
    (read_entire_readinglist db now st).increments.length = st.readinglist.length ∧
    (read_entire_readinglist db now st).st.readinglist = st.readinglist ∧
    (read_entire_readinglist db now st).st.current_list_number = 1 := by
  have hlen : 1 ≤ st.readinglist.length := List.length_pos.mpr hne
  have h := readLoop_ok db now st.readinglist hdb st.readinglist.length
    { st with current_list_number := 1 } hlen rfl hwf (le_refl 1) (by dsimp; omega)
  simp only [read_entire_readinglist, check_if_empty, if_neg hne]
  have hinc : (readLoop db now st.readinglist.length
      { st with current_list_number := 1 }).increments = st.readinglist := by
    rw [h.2.2.2]
    simp
  exact ⟨h.1, hinc, by rw [hinc], h.2.1, h.2.2.1⟩

/-- Witness for C8 at concrete inputs: reading the whole list `[1, 2]`
increments books 1 and 2 (exactly two increments) and parks the cursor at
position 1. -/
theorem read_entire_readinglist_spec_witness :
    (read_entire_readinglist db0 0 ⟨2, [1, 2], fun _ => none, fun _ => none, 60⟩).res
      = .ok () ∧
    (read_entire_readinglist db0 0
      ⟨2, [1, 2], fun _ => none, fun _ => none, 60⟩).increments = [1, 2] ∧
    (read_entire_readinglist db0 0
      ⟨2, [1, 2], fun _ => none, fun _ => none, 60⟩).st.current_list_number = 1 := by
  have hdb : ∀ j ∈ ([1, 2] : List ℕ), ∃ b, db0 j = some b ∧ b.id = j := by
    intro j hj
    rcases (by simpa using hj : j = 1 ∨ j = 2) with rfl | rfl
    · exact ⟨book1, rfl, rfl⟩
    · exact ⟨book2, rfl, rfl⟩
  have h := read_entire_readinglist_spec db0 0
    ⟨2, [1, 2], fun _ => none, fun _ => none, 60⟩ (by simp) hdb
    (fun j bk h => Option.noConfusion h)
  exact ⟨h.1, h.2.1, h.2.2.2.2⟩

/-- The state reached from a fresh reading list by the successful call
sequence `add 1; add 2; go_to_list_number 2; remove_book_by_book_id 2`
(all at time 0, against the two-book database `db0`). -/
def cexState : RLState :=
  (remove_book_by_book_id db0 0
    (go_to_list_number
      (add_book_to_readinglist db0 0
        (add_book_to_readinglist db0 0 (initialState 60) 1).2.1 2).2.1 2).2 2).2.1

/-- The cache contents after adding book 1 at time 0. -/
def cexCache1 : ℕ → Option Books := fun j => if j = 1 then some book1 else none

/-- The cache expiries after adding book 1 at time 0 with TTL 60. -/
def cexTtl1 : ℕ → Option ℚ := fun j => if j = 1 then some 60 else none

/-- The cache contents after also adding book 2. -/
def cexCache2 : ℕ → Option Books := fun j => if j = 2 then some book2 else cexCache1 j

/-- The cache expiries after also adding book 2. -/
def cexTtl2 : ℕ → Option ℚ := fun j => if j = 2 then some 60 else cexTtl1 j

lemma cex_step1 : add_book_to_readinglist db0 0 (initialState 60) 1 =
    (.ok (), ⟨1, [1], cexCache1, cexTtl1, 60⟩, 1) := by
  norm_num [add_book_to_readinglist, validate_book_id, _get_book_from_cache_or_db,
    fetchFromDB, check_if_empty, initialState, db0, book1]
  exact ⟨rfl, rfl⟩

lemma cex_step2 : add_book_to_readinglist db0 0 ⟨1, [1], cexCache1, cexTtl1, 60⟩ 2 =
    (.ok (), ⟨1, [1, 2], cexCache2, cexTtl2, 60⟩, 1) := by
  norm_num [add_book_to_readinglist, validate_book_id, _get_book_from_cache_or_db,
    fetchFromDB, check_if_empty, db0, book2, cexCache1, cexTtl1]
  exact ⟨rfl, rfl⟩

lemma cex_step3 : go_to_list_number ⟨1, [1, 2], cexCache2, cexTtl2, 60⟩ 2 =
    (.ok (), ⟨2, [1, 2], cexCache2, cexTtl2, 60⟩) := by
  rfl

lemma cex_step4 : remove_book_by_book_id db0 0 ⟨2, [1, 2], cexCache2, cexTtl2, 60⟩ 2 =
    (.ok (), ⟨2, [1], cexCache2, cexTtl2, 60⟩, 0) := by
  norm_num [remove_book_by_book_id, validate_book_id, _get_book_from_cache_or_db,
    fetchFromDB, check_if_empty, db0, book2, cexCache1, cexTtl1, cexCache2,
    cexTtl2]
  try rfl

/-- Counterexample to C1: removing the book the cursor points at does not
re-clamp the cursor.  From the fresh state, `add 1; add 2; go_to 2;
remove_by_id 2` all succeed, yet the final state has the cursor at
position 2 on a one-element list, violating
`current_position <= length`. -/
theorem remove_leaves_cursor_out_of_range :
    (add_book_to_readinglist db0 0 (initialState 60) 1).1 = .ok () ∧
    (add_book_to_readinglist db0 0
      (add_book_to_readinglist db0 0 (initialState 60) 1).2.1 2).1 = .ok () ∧
    (go_to_list_number
      (add_book_to_readinglist db0 0
        (add_book_to_readinglist db0 0 (initialState 60) 1).2.1 2).2.1 2).1 = .ok () ∧
    (remove_book_by_book_id db0 0
      (go_to_list_number
        (add_book_to_readinglist db0 0
          (add_book_to_readinglist db0 0 (initialState 60) 1).2.1 2).2.1 2).2 2).1
      = .ok () ∧
    cexState.readinglist = [1] ∧
    cexState.current_list_number = 2 ∧
    ¬ cexState.current_list_number ≤ cexState.readinglist.length := by
  have hc : cexState = ⟨2, [1], cexCache2, cexTtl2, 60⟩ := by
    unfold cexState
    rw [cex_step1]
    dsimp only
    rw [cex_step2]
    dsimp only
    rw [cex_step3]
    dsimp only
    rw [cex_step4]
  refine ⟨by rw [cex_step1], ?_, ?_, ?_, by rw [hc], by rw [hc], by rw [hc]; decide⟩
  · rw [cex_step1]
    dsimp only
    rw [cex_step2]
  · rw [cex_step1]
    dsimp only
    rw [cex_step2]
    dsimp only
    rw [cex_step3]
  · rw [cex_step1]
    dsimp only
    rw [cex_step2]
    dsimp only
    rw [cex_step3]
    dsimp only
    rw [cex_step4]

lemma check_if_empty_ok {st : RLState} {u : Unit}
    (h : check_if_empty st = .ok u) : st.readinglist ≠ [] := by
  unfold check_if_empty at h
  split at h
  · cases h
  · next hc => exact hc

lemma validate_list_number_ok {st : RLState} {n m : ℕ}
    (h : validate_list_number st n = .ok m) :
    1 ≤ m ∧ m ≤ st.readinglist.length := by
  unfold validate_list_number at h
  split at h
  · next hc =>
    cases h
    exact hc
  · cases h

@[simp] lemma get_by_ln_readinglist (db : DB) (now : ℚ) (st : RLState) (n : ℕ) :
    (get_book_by_list_number db now st n).2.1.readinglist = st.readinglist := by
  unfold get_book_by_list_number
  split
  · rfl
  · split
    · rfl
    · simp

@[simp] lemma get_by_ln_current (db : DB) (now : ℚ) (st : RLState) (n : ℕ) :
    (get_book_by_list_number db now st n).2.1.current_list_number =
      st.current_list_number := by
  unfold get_book_by_list_number
  split
  · rfl
  · split
    · rfl
    · simp

lemma add_facts (db : DB) (now : ℚ) (st : RLState) (i : ℕ) :
    (add_book_to_readinglist db now st i).2.1.current_list_number =
      st.current_list_number ∧
    st.readinglist.length ≤ (add_book_to_readinglist db now st i).2.1.readinglist.length := by
  unfold add_book_to_readinglist
  split <;> rename_i heq
  · constructor
    · have h := validate_current db now st i false
      rw [heq] at h
      exact h
    · have h := validate_readinglist db now st i false
      rw [heq] at h
      exact le_of_eq (congrArg List.length h).symm
  · rename_i u st1 n1
    have hc1 : st1.current_list_number = st.current_list_number := by
      have h := validate_current db now st i false
      rw [heq] at h
      exact h
    have hl1 : st1.readinglist = st.readinglist := by
      have h := validate_readinglist db now st i false
      rw [heq] at h
      exact h
    split
    · exact ⟨hc1, le_of_eq (congrArg List.length hl1).symm⟩
    · split <;> rename_i heq2
      · constructor
        · have h := resolve_current db now st1 i
          rw [heq2] at h
          exact h.trans hc1
        · have h := resolve_readinglist db now st1 i
          rw [heq2] at h
          exact le_of_eq (congrArg List.length (h.trans hl1)).symm
      · rename_i b st2 n2
        have hc2 : st2.current_list_number = st1.current_list_number := by
          have h := resolve_current db now st1 i
          rw [heq2] at h
          exact h
        have hl2 : st2.readinglist = st1.readinglist := by
          have h := resolve_readinglist db now st1 i
          rw [heq2] at h
          exact h
        constructor
        · exact hc2.trans hc1
        · dsimp
          rw [List.length_append, hl2, hl1]
          omega

lemma move_beginning_facts (db : DB) (now : ℚ) (st : RLState) (i : ℕ) :
    (move_book_to_beginning db now st i).2.1.current_list_number =
      st.current_list_number ∧
    (move_book_to_beginning db now st i).2.1.readinglist.length =
      st.readinglist.length := by
  unfold move_book_to_beginning
  split
  · exact ⟨rfl, rfl⟩
  · split <;> rename_i heq
    · constructor
      · have h := validate_current db now st i true
        rw [heq] at h
        exact h
      · have h := validate_readinglist db now st i true
        rw [heq] at h
        exact congrArg List.length h
    · rename_i u st1 n1
      have hmem : i ∈ st.readinglist := validate_mem_of_ok heq
      have hc1 : st1.current_list_number = st.current_list_number := by
        have h := validate_current db now st i true
        rw [heq] at h
        exact h
      have hl1 : st1.readinglist = st.readinglist := by
        have h := validate_readinglist db now st i true
        rw [heq] at h
        exact h
      refine ⟨hc1, ?_⟩
      dsimp
      rw [hl1, List.length_erase_of_mem hmem]
      have h0 : 0 < st.readinglist.length :=
        List.length_pos.mpr (List.ne_nil_of_mem hmem)
      omega

lemma move_end_facts (db : DB) (now : ℚ) (st : RLState) (i : ℕ) :
    (move_book_to_end db now st i).2.1.current_list_number =
      st.current_list_number ∧
    (move_book_to_end db now st i).2.1.readinglist.length =
      st.readinglist.length := by
  unfold move_book_to_end
  split
  · exact ⟨rfl, rfl⟩
  · split <;> rename_i heq
    · constructor
      · have h := validate_current db now st i true
        rw [heq] at h
        exact h
      · have h := validate_readinglist db now st i true
        rw [heq] at h
        exact congrArg List.length h
    · rename_i u st1 n1
      have hmem : i ∈ st.readinglist := validate_mem_of_ok heq
      have hc1 : st1.current_list_number = st.current_list_number := by
        have h := validate_current db now st i true
        rw [heq] at h
        exact h
      have hl1 : st1.readinglist = st.readinglist := by
        have h := validate_readinglist db now st i true
        rw [heq] at h
        exact h
      refine ⟨hc1, ?_⟩
      dsimp
      rw [List.length_append, hl1, List.length_erase_of_mem hmem]
      have h0 : 0 < st.readinglist.length :=
        List.length_pos.mpr (List.ne_nil_of_mem hmem)
      simp
      omega

lemma move_ln_facts (db : DB) (now : ℚ) (st : RLState) (i n : ℕ) :
    (move_book_to_list_number db now st i n).2.1.current_list_number =
      st.current_list_number ∧
    (move_book_to_list_number db now st i n).2.1.readinglist.length =
      st.readinglist.length := by
  unfold move_book_to_list_number
  split
  · exact ⟨rfl, rfl⟩
  · split <;> rename_i heq
    · constructor
      · have h := validate_current db now st i true
        rw [heq] at h
        exact h
      · have h := validate_readinglist db now st i true
        rw [heq] at h
        exact congrArg List.length h
    · rename_i u st1 n1
      have hmem : i ∈ st.readinglist := validate_mem_of_ok heq
      have hc1 : st1.current_list_number = st.current_list_number := by
        have h := validate_current db now st i true
        rw [heq] at h
        exact h
      have hl1 : st1.readinglist = st.readinglist := by
        have h := validate_readinglist db now st i true
        rw [heq] at h
        exact h
      have h0 : 0 < st.readinglist.length :=
        List.length_pos.mpr (List.ne_nil_of_mem hmem)
      split <;> rename_i heq2
      · exact ⟨hc1, congrArg List.length hl1⟩
      · rename_i m
        obtain ⟨hm1, hm2⟩ := validate_list_number_ok heq2
        rw [hl1] at hm2
        refine ⟨hc1, ?_⟩
        dsimp
        rw [List.length_insertIdx _ _
          (by rw [hl1, List.length_erase_of_mem hmem]; omega)]
        rw [hl1, List.length_erase_of_mem hmem]
        omega

lemma swap_facts (db : DB) (now : ℚ) (st : RLState) (i j : ℕ) :
    (swap_books_in_readinglist db now st i j).2.1.current_list_number =
      st.current_list_number ∧
    (swap_books_in_readinglist db now st i j).2.1.readinglist.length =
      st.readinglist.length := by
  unfold swap_books_in_readinglist
  split
  · exact ⟨rfl, rfl⟩
  · split <;> rename_i heq
    · constructor
      · have h := validate_current db now st i true
        rw [heq] at h
        exact h
      · have h := validate_readinglist db now st i true
        rw [heq] at h
        exact congrArg List.length h
    · rename_i u st1 n1
      have hc1 : st1.current_list_number = st.current_list_number := by
        have h := validate_current db now st i true
        rw [heq] at h
        exact h
      have hl1 : st1.readinglist = st.readinglist := by
        have h := validate_readinglist db now st i true
        rw [heq] at h
        exact h
      split <;> rename_i heq2
      · constructor
        · have h := validate_current db now st1 j true
          rw [heq2] at h
          exact h.trans hc1
        · have h := validate_readinglist db now st1 j true
          rw [heq2] at h
          exact congrArg List.length (h.trans hl1)
      · rename_i u2 st2 n2
        have hc2 : st2.current_list_number = st.current_list_number := by
          have h := validate_current db now st1 j true
          rw [heq2] at h
          exact h.trans hc1
        have hl2 : st2.readinglist = st.readinglist := by
          have h := validate_readinglist db now st1 j true
          rw [heq2] at h
          exact h.trans hl1
        split
        · exact ⟨hc2, congrArg List.length hl2⟩
        · refine ⟨hc2, ?_⟩
          dsimp
          rw [List.length_set, List.length_set]
          exact congrArg List.length hl2

lemma go_to_facts (st : RLState) (n : ℕ) :
    (go_to_list_number st n).2.readinglist = st.readinglist ∧
    ((go_to_list_number st n).2.current_list_number = st.current_list_number ∨
      (1 ≤ (go_to_list_number st n).2.current_list_number ∧
        (go_to_list_number st n).2.current_list_number ≤ st.readinglist.length)) := by
  unfold go_to_list_number
  split
  · exact ⟨rfl, Or.inl rfl⟩
  · split <;> rename_i heq
    · exact ⟨rfl, Or.inl rfl⟩
    · obtain ⟨h1, h2⟩ := validate_list_number_ok heq
      exact ⟨rfl, Or.inr ⟨h1, h2⟩⟩

lemma go_to_random_facts (st : RLState) (r : ℕ) :
    (go_to_random_list st r).2.readinglist = st.readinglist ∧
    ((go_to_random_list st r).2.current_list_number = st.current_list_number ∨
      (st.readinglist ≠ [] ∧ (go_to_random_list st r).2.current_list_number = r)) := by
  unfold go_to_random_list
  split <;> rename_i heq
  · exact ⟨rfl, Or.inl rfl⟩
  · exact ⟨rfl, Or.inr ⟨check_if_empty_ok heq, rfl⟩⟩

lemma rewind_facts (st : RLState) :
    (rewind_readinglist st).2.readinglist = st.readinglist ∧
    ((rewind_readinglist st).2.current_list_number = st.current_list_number ∨
      (rewind_readinglist st).2.current_list_number = 1) := by
  unfold rewind_readinglist
  split
  · exact ⟨rfl, Or.inl rfl⟩
  · exact ⟨rfl, Or.inr rfl⟩

lemma read_current_facts (db : DB) (now : ℚ) (st : RLState) :
    (read_current_book db now st).st.readinglist = st.readinglist ∧
    ((read_current_book db now st).st.current_list_number = st.current_list_number ∨
      (st.readinglist ≠ [] ∧
        (read_current_book db now st).st.current_list_number =
          st.current_list_number % st.readinglist.length + 1)) := by
  unfold read_current_book
  split <;> rename_i heq0
  · exact ⟨rfl, Or.inl rfl⟩
  · have hne : st.readinglist ≠ [] := check_if_empty_ok heq0
    split <;> rename_i heq
    · constructor
      · have h := get_by_ln_readinglist db now st st.current_list_number
        rw [heq] at h
        exact h
      · left
        have h := get_by_ln_current db now st st.current_list_number
        rw [heq] at h
        exact h
    · rename_i b st1 n1
      have hc1 : st1.current_list_number = st.current_list_number := by
        have h := get_by_ln_current db now st st.current_list_number
        rw [heq] at h
        exact h
      have hl1 : st1.readinglist = st.readinglist := by
        have h := get_by_ln_readinglist db now st st.current_list_number
        rw [heq] at h
        exact h
      split
      · exact ⟨hl1, Or.inl hc1⟩
      · refine ⟨hl1, Or.inr ⟨hne, ?_⟩⟩
        dsimp
        rw [hc1, hl1]

/-- The engine operations named by the cursor-invariant claim. -/
inductive Op where
  | add (book_id : ℕ)
  | removeById (book_id : ℕ)
  | removeByListNumber (n : ℕ)
  | moveToBeginning (book_id : ℕ)
  | moveToEnd (book_id : ℕ)
  | moveToListNumber (book_id : ℕ) (n : ℕ)
  | swap (book1_id book2_id : ℕ)
  | goTo (n : ℕ)
  | goToRandom (r : ℕ)
  | rewind
  | readCurrent
  | readAll
  | readRest
deriving DecidableEq, Repr

/-- The state after running one engine operation (whether it succeeds or
raises); `r` in `goToRandom r` is the injected random draw. -/
def applyOp (db : DB) (now : ℚ) (op : Op) (st : RLState) : RLState :=
  match op with
  | .add i => (add_book_to_readinglist db now st i).2.1
  | .removeById i => (remove_book_by_book_id db now st i).2.1
  | .removeByListNumber n => (remove_book_by_list_number st n).2
  | .moveToBeginning i => (move_book_to_beginning db now st i).2.1
  | .moveToEnd i => (move_book_to_end db now st i).2.1
  | .moveToListNumber i n => (move_book_to_list_number db now st i n).2.1
  | .swap i j => (swap_books_in_readinglist db now st i j).2.1
  | .goTo n => (go_to_list_number st n).2
  | .goToRandom r => (go_to_random_list st r).2
  | .rewind => (rewind_readinglist st).2
  | .readCurrent => (read_current_book db now st).st
  | .readAll => (read_entire_readinglist db now st).st
  | .readRest => (read_rest_of_readinglist db now st).st

/-- The cursor invariant: the cursor is at least 1, equals 1 on an empty
list, and is at most the list length on a non-empty list. -/
def Inv (st : RLState) : Prop :=
  1 ≤ st.current_list_number ∧
  (st.readinglist.length = 0 → st.current_list_number = 1) ∧
  (1 ≤ st.readinglist.length → st.current_list_number ≤ st.readinglist.length)

/-- The read loop preserves the cursor invariant and the list. -/
lemma readLoop_inv (db : DB) (now : ℚ) :
    ∀ k st, Inv st →
      Inv (readLoop db now k st).st ∧
      (readLoop db now k st).st.readinglist = st.readinglist := by
  intro k
  induction k with
  | zero => intro st h; exact ⟨h, rfl⟩
  | succ k ih =>
    intro st h
    have hf := read_current_facts db now st
    have hinv1 : Inv (read_current_book db now st).st := by
      obtain ⟨hfl, hfp⟩ := hf
      obtain ⟨h1, h2, h3⟩ := h
      rcases hfp with hp | ⟨hne, hp⟩
      · exact ⟨by omega, fun h0 => by rw [hfl] at h0; omega,
          fun h0 => by rw [hfl] at h0 ⊢; omega⟩
      · have hlen : 1 ≤ st.readinglist.length := List.length_pos.mpr hne
        have hm : st.current_list_number % st.readinglist.length <
            st.readinglist.length := Nat.mod_lt _ (by omega)
        refine ⟨by omega, fun h0 => by rw [hfl] at h0; omega,
          fun h0 => by rw [hfl]; omega⟩
    rcases hrc : read_current_book db now st with ⟨res1, st1, n1, inc1⟩
    rw [hrc] at hinv1 hf
    dsimp at hinv1 hf
    rcases res1 with e | u
    · constructor
      · simpa only [readLoop, hrc] using hinv1
      · have : (readLoop db now (k + 1) st).st = st1 := by
          simp only [readLoop, hrc]
        rw [this]
        exact hf.1
    · have hu : u = () := rfl
      subst hu
      have hstep := readLoop_succ_ok (k := k) hrc
      have hrec := ih st1 hinv1
      constructor
      · rw [hstep]
        exact hrec.1
      · rw [hstep]
        exact hrec.2.trans hf.1

/-- C1 (amended): every listed engine operation except `remove_by_id` and
`remove_by_position` preserves the cursor invariant (assuming the random
draw for `go_to_random_position` respects its contract of lying in
`[1, length]`); in particular, whenever such an operation leaves the list
non-empty, `1 <= current_position <= length` holds afterwards.  The two
removal operations do not re-clamp the cursor and can violate the
invariant (see the counterexample). -/
theorem cursor_invariant_amended (db : DB) (now : ℚ) (op : Op) (st : RLState)
    (hop1 : ∀ i, op ≠ Op.removeById i)
    (hop2 : ∀ n, op ≠ Op.removeByListNumber n)
    (hrand : ∀ r, op = Op.goToRandom r → st.readinglist ≠ [] →
      1 ≤ r ∧ r ≤ st.readinglist.length)
    (hinv : Inv st) :
    Inv (applyOp db now op st) ∧
    ((applyOp db now op st).readinglist ≠ [] →
      1 ≤ (applyOp db now op st).current_list_number ∧
      (applyOp db now op st).current_list_number ≤
        (applyOp db now op st).readinglist.length) := by
  obtain ⟨h1, h2, h3⟩ := hinv
  have key : Inv (applyOp db now op st) := by
    cases op with
    | add i =>
      obtain ⟨hp, hl⟩ := add_facts db now st i
      dsimp only [applyOp]
      exact ⟨by omega, by omega, by omega⟩
    | removeById i => exact absurd rfl (hop1 i)
    | removeByListNumber n => exact absurd rfl (hop2 n)
    | moveToBeginning i =>
      obtain ⟨hp, hl⟩ := move_beginning_facts db now st i
      dsimp only [applyOp]
      exact ⟨by omega, by omega, by omega⟩
    | moveToEnd i =>
      obtain ⟨hp, hl⟩ := move_end_facts db now st i
      dsimp only [applyOp]
      exact ⟨by omega, by omega, by omega⟩
    | moveToListNumber i n =>
      obtain ⟨hp, hl⟩ := move_ln_facts db now st i n
      dsimp only [applyOp]
      exact ⟨by omega, by omega, by omega⟩
    | swap i j =>
      obtain ⟨hp, hl⟩ := swap_facts db now st i j
      dsimp only [applyOp]
      exact ⟨by omega, by omega, by omega⟩
    | goTo n =>
      obtain ⟨hl, hp⟩ := go_to_facts st n
      dsimp only [applyOp]
      rcases hp with hp | ⟨ha, hb⟩
      · exact ⟨by omega, fun h0 => by rw [hl] at h0; omega,
          fun h0 => by rw [hl] at h0 ⊢; omega⟩
      · exact ⟨by omega, fun h0 => by rw [hl] at h0; omega,
          fun h0 => by rw [hl]; omega⟩
    | goToRandom r =>
      obtain ⟨hl, hp⟩ := go_to_random_facts st r
      dsimp only [applyOp]
      rcases hp with hp | ⟨hne, hp⟩
      · exact ⟨by omega, fun h0 => by rw [hl] at h0; omega,
          fun h0 => by rw [hl] at h0 ⊢; omega⟩
      · obtain ⟨hr1, hr2⟩ := hrand r rfl hne
        exact ⟨by omega, fun h0 => by rw [hl] at h0; omega,
          fun h0 => by rw [hl]; omega⟩
    | rewind =>
      obtain ⟨hl, hp⟩ := rewind_facts st
      rcases hp with hp | hp <;>
        exact ⟨by dsimp only [applyOp]; omega,
          fun h0 => by dsimp only [applyOp] at *; rw [hl] at h0; omega,
          fun h0 => by dsimp only [applyOp] at *; rw [hl] at h0 ⊢; omega⟩
    | readCurrent =>
      obtain ⟨hl, hp⟩ := read_current_facts db now st
      dsimp only [applyOp]
      rcases hp with hp | ⟨hne, hp⟩
      · exact ⟨by omega, fun h0 => by rw [hl] at h0; omega,
          fun h0 => by rw [hl] at h0 ⊢; omega⟩
      · have hlen : 1 ≤ st.readinglist.length := List.length_pos.mpr hne
        have hm : st.current_list_number % st.readinglist.length <
            st.readinglist.length := Nat.mod_lt _ (by omega)
        exact ⟨by omega, fun h0 => by rw [hl] at h0; omega,
          fun h0 => by rw [hl]; omega⟩
    | readAll =>
      dsimp only [applyOp]
      unfold read_entire_readinglist
      split
      · exact ⟨h1, h2, h3⟩
      · have hstart : Inv { st with current_list_number := 1 } :=
          ⟨le_refl 1, fun _ => rfl, fun h => h⟩
        exact (readLoop_inv db now st.readinglist.length
          { st with current_list_number := 1 } hstart).1
    | readRest =>
      dsimp only [applyOp]
      unfold read_rest_of_readinglist
      split
      · exact ⟨h1, h2, h3⟩
      · exact (readLoop_inv db now _ st ⟨h1, h2, h3⟩).1
  refine ⟨key, fun hne => ?_⟩
  have hlen : 1 ≤ (applyOp db now op st).readinglist.length :=
    List.length_pos.mpr hne
  exact ⟨key.1, key.2.2 hlen⟩

/-- Witness for C1 (amended) at concrete inputs: rewinding from the state
with cursor 2 on the list `[1, 2]` keeps the invariant, and the resulting
non-empty list has its cursor in range. -/
theorem cursor_invariant_amended_witness :
    Inv (applyOp db0 0 Op.rewind ⟨2, [1, 2], fun _ => none, fun _ => none, 60⟩) ∧
    ((applyOp db0 0 Op.rewind
        ⟨2, [1, 2], fun _ => none, fun _ => none, 60⟩).readinglist ≠ [] →
      1 ≤ (applyOp db0 0 Op.rewind
        ⟨2, [1, 2], fun _ => none, fun _ => none, 60⟩).current_list_number ∧
      (applyOp db0 0 Op.rewind
          ⟨2, [1, 2], fun _ => none, fun _ => none, 60⟩).current_list_number ≤
        (applyOp db0 0 Op.rewind
          ⟨2, [1, 2], fun _ => none, fun _ => none, 60⟩).readinglist.length) :=
  cursor_invariant_amended db0 0 Op.rewind ⟨2, [1, 2], fun _ => none, fun _ => none, 60⟩
    (fun i h => Op.noConfusion h) (fun n h => Op.noConfusion h)
    (fun r h => Op.noConfusion h)
    ⟨by norm_num, by norm_num, by norm_num⟩

end ReadingList
